import Mathlib

set_option maxRecDepth 1000000

/-!
Verification of the mean-variance efficient-frontier endpoint of
`server/api/portfolio.py` (`calculate_efficient_frontier`).

The embedding works over the rationals.  Three external numerical
routines are parameters of the embedded pipeline:

* `solver`  : the cvxpy/OSQP quadratic-program solver (`prob.solve`);
* `sqrtQ`   : `np.sqrt`, applied to the portfolio variance;
* `inv`     : `np.linalg.inv`; the source only uses its possible
  `LinAlgError` (the computed inverse is dead code), so the parameter
  returns `none` exactly when the source would raise `LinAlgError`.

All other arithmetic of the source is embedded directly.
-/

/-- Status reported by the QP solver; `optimal` models the cvxpy status
string `optimal`, `failed` models every other status (infeasible,
unbounded, solver error). -/
inductive SolveStatus
  | optimal
  | failed
deriving DecidableEq, Repr

/-- Result of one `prob.solve` call: the reported status and the value of
the weight variable (`w.value`, `none` models the Python value `None`). -/
structure SolveResult where
  status : SolveStatus
  value : Option (List ℚ)
deriving DecidableEq, Repr

/-- Objective of a solve in the source: minimize the quadratic form
`w' cov w`, or maximize the linear return `mu @ w`. -/
inductive QPObjective
  | minVar
  | maxRet
deriving DecidableEq, Repr

/-- One constrained problem handed to the solver, carrying exactly the
data the source builds it from: objective, `mu`, `cov`, an optional target
return (constraint `mu @ w >= target`), the `allow_short` flag (when
false, constraint `w >= 0`) and `max_weight` (when `< 1`, constraint
`w <= max_weight`). -/
structure QProblem where
  objective : QPObjective
  mu : List ℚ
  cov : List (List ℚ)
  target : Option ℚ
  allowShort : Bool
  maxWeight : ℚ
deriving DecidableEq, Repr

/-- An efficient-frontier point of the response (class
`EfficientFrontierPoint`): risk, return and the per-ticker weight mapping
(an insertion-ordered dict, embedded as an association list). -/
structure EfficientFrontierPoint where
  risk : ℚ
  return_ : ℚ
  weights : List (String × ℚ)
deriving DecidableEq, Repr, Inhabited

/-- The tangency field of the response (source class name
`TangencyPortfolio`; abbreviated here). -/
structure Tangency where
  risk : ℚ
  return_ : ℚ
  sharpe : ℚ
  weights : List (String × ℚ)
deriving DecidableEq, Repr, Inhabited

/-- One capital-market-line point of the response (class `CMLPoint`). -/
structure CMLPoint where
  risk : ℚ
  return_ : ℚ
deriving DecidableEq, Repr, Inhabited

/-- The endpoint response (class `EfficientFrontierResponse`). -/
structure EfficientFrontierResponse where
  frontier : List EfficientFrontierPoint
  tangency : Tangency
  cml : List CMLPoint
deriving DecidableEq, Repr, Inhabited

/-- The only error surface of the endpoint: `HTTPException(status, detail)`
raised by the generic handler at line 255 of `portfolio.py`. -/
inductive ApiError
  | http : ℕ → String → ApiError
deriving DecidableEq, Repr

/-- Status code carried by an `ApiError`. -/
def apiStatus : ApiError → ℕ
  | .http s _ => s

/-- One `ReturnDataPoint` of the request; `ret : Option` models a float
that may be NaN (`none` is NaN). -/
structure ReturnDataPoint where
  date : String
  ret : Option ℚ
deriving DecidableEq, Repr

/-- The request body (`EfficientFrontierRequest`); the dict of return
series is embedded as an insertion-ordered association list. -/
structure EfficientFrontierRequest where
  returns : List (String × List ReturnDataPoint)
  rf : ℚ
  allow_short : Bool
  max_weight : ℚ
  interval : String
deriving DecidableEq, Repr

/-- Dot product of two rational vectors (`a @ b`). -/
def dotQ (a b : List ℚ) : ℚ := (List.zipWith (· * ·) a b).sum

/-- Matrix-vector product (`m @ v`). -/
def matVecQ (m : List (List ℚ)) (v : List ℚ) : List ℚ := m.map (fun row => dotQ row v)

/-- Quadratic form `w @ cov @ w`, the portfolio variance of the source. -/
def quadFormQ (m : List (List ℚ)) (w : List ℚ) : ℚ := dotQ w (matVecQ m w)

/-- Decidable check that `w` satisfies every constraint the source puts in
the cvxpy problem `p`: the variable has `len(mu)` entries, `sum(w) == 1`,
`mu @ w >= target` when a target is set, `w >= 0` when shorting is
disallowed, and `w <= max_weight` when `max_weight < 1`. -/
def feasibleB (p : QProblem) (w : List ℚ) : Bool :=
  decide (w.length = p.mu.length) && decide (w.sum = 1) &&
    (match p.target with
      | none => true
      | some t => decide (t ≤ dotQ p.mu w)) &&
    (p.allowShort || w.all (fun x => decide (0 ≤ x))) &&
    (decide (1 ≤ p.maxWeight) || w.all (fun x => decide (x ≤ p.maxWeight)))

/-- A solver is sound when every weight vector it reports as optimal
satisfies the constraints of the problem it was given. -/
def SolverSound (solver : QProblem → SolveResult) : Prop :=
  ∀ p w, (solver p).status = .optimal → (solver p).value = some w → feasibleB p w = true

/-- The minimum-variance problem of lines 118-127: minimize `w' cov w`
with the shared constraints and no return target. -/
def minVarProblem (mu : List ℚ) (cov : List (List ℚ)) (allowShort : Bool) (maxW : ℚ) : QProblem :=
  ⟨.minVar, mu, cov, none, allowShort, maxW⟩

/-- The maximum-return problem of lines 136-145: maximize `mu @ w` with
the shared constraints. -/
def maxRetProblem (mu : List ℚ) (cov : List (List ℚ)) (allowShort : Bool) (maxW : ℚ) : QProblem :=
  ⟨.maxRet, mu, cov, none, allowShort, maxW⟩

/-- The per-target problem of lines 163-176: minimize `w' cov w` subject
to the shared constraints and `mu @ w >= target`. -/
def targetProblem (mu : List ℚ) (cov : List (List ℚ)) (allowShort : Bool) (maxW : ℚ) (t : ℚ) : QProblem :=
  ⟨.minVar, mu, cov, some t, allowShort, maxW⟩

/-- `np.linspace a b n`: `n` evenly spaced samples from `a` to `b`,
endpoints included. -/
def linspace (a b : ℚ) (n : ℕ) : List ℚ :=
  (List.range n).map (fun i : ℕ => a + (b - a) * (i : ℚ) / ((n : ℚ) - 1))

/-- Lines 157-158: if `min_return >= max_return`, rescale
`max_return = min_return * 1.5`. -/
def adjustedMaxReturn (minR maxR : ℚ) : ℚ :=
  if maxR ≤ minR then minR * (3 / 2) else maxR

/-- Line 160 (with the line 154 count and the rescale above): the sweep of
target returns `np.linspace(min_return * 0.95, max_return * 1.05, 50)`. -/
def frontierTargets (minR maxR : ℚ) : List ℚ :=
  linspace (minR * (19 / 20)) (adjustedMaxReturn minR maxR * (21 / 20)) 50

/-- Sharpe ratio of a frontier point relative to `rf` (line 197). -/
def sharpeOf (rf : ℚ) (p : EfficientFrontierPoint) : ℚ := (p.return_ - rf) / p.risk

/-- The tangency record built from a frontier point (lines 200-205). -/
def tangencyOfPoint (rf : ℚ) (p : EfficientFrontierPoint) : Tangency :=
  ⟨p.risk, p.return_, sharpeOf rf p, p.weights⟩

/-- One iteration of the selection loop of lines 195-205: keep the running
best, replace it when a point with positive risk has a strictly larger
Sharpe ratio (the source tracks `max_sharpe` starting at `-inf`, so the
first point with positive risk is always taken). -/
def tangencyStep (rf : ℚ) (acc : Option Tangency) (p : EfficientFrontierPoint) : Option Tangency :=
  if 0 < p.risk then
    match acc with
    | none => some (tangencyOfPoint rf p)
    | some t => if t.sharpe < sharpeOf rf p then some (tangencyOfPoint rf p) else acc
  else acc

/-- The whole selection loop of lines 192-205. -/
def selectTangency (rf : ℚ) (pts : List EfficientFrontierPoint) : Option Tangency :=
  pts.foldl (tangencyStep rf) none

/-- The fallback tangency of lines 208-218, built from the
minimum-variance weights: Sharpe is `(ret - rf)/risk` when risk is
positive and `0` otherwise. -/
def minVarTangency (sqrtQ : ℚ → ℚ) (tickers : List String) (mu : List ℚ)
    (cov : List (List ℚ)) (rf : ℚ) (wmin : List ℚ) : Tangency :=
  let ret := dotQ mu wmin
  let risk := sqrtQ (quadFormQ cov wmin)
  ⟨risk, ret, if 0 < risk then (ret - rf) / risk else 0, tickers.zip wmin⟩

/-- One iteration of the sweep loop of lines 162-189: solve the per-target
problem; a point is produced only when the status is `optimal`, the value
is not `None`, and the resulting risk is strictly positive. -/
def frontierStep (solver : QProblem → SolveResult) (sqrtQ : ℚ → ℚ) (tickers : List String)
    (mu : List ℚ) (cov : List (List ℚ)) (allowShort : Bool) (maxW : ℚ) (t : ℚ) :
    Option EfficientFrontierPoint :=
  match (solver (targetProblem mu cov allowShort maxW t)).status,
      (solver (targetProblem mu cov allowShort maxW t)).value with
  | .optimal, some w =>
    if 0 < sqrtQ (quadFormQ cov w) then
      some ⟨sqrtQ (quadFormQ cov w), dotQ mu w, tickers.zip w⟩
    else none
  | _, _ => none

/-- The sweep loop of lines 162-189: accepted points, in target order,
with rejected targets silently dropped. -/
def buildFrontier (solver : QProblem → SolveResult) (sqrtQ : ℚ → ℚ) (tickers : List String)
    (mu : List ℚ) (cov : List (List ℚ)) (allowShort : Bool) (maxW : ℚ)
    (targets : List ℚ) : List EfficientFrontierPoint :=
  targets.filterMap (frontierStep solver sqrtQ tickers mu cov allowShort maxW)

/-- Python `max` over a list (`none` on an empty list). -/
def pythonMax : List ℚ → Option ℚ
  | [] => none
  | x :: xs => some (xs.foldl max x)

/-- Line 223: the upper bound of the CML risk sweep, `1.5 *` the maximum
frontier risk when the frontier is nonempty, else `2 *` the tangency
risk. -/
def cmlBound (t : Tangency) (frontier : List EfficientFrontierPoint) : ℚ :=
  match pythonMax (frontier.map (·.risk)) with
  | some m => m * (3 / 2)
  | none => t.risk * 2

/-- Lines 221-226: the capital market line, built only when the tangency
risk is positive; 50 risks from 0 to the bound, each mapped to
`rf + (tangency.return - rf) / tangency.risk * risk`. -/
def buildCML (rf : ℚ) (t : Tangency) (frontier : List EfficientFrontierPoint) : List CMLPoint :=
  if 0 < t.risk then
    (linspace 0 (cmlBound t frontier) 50).map
      (fun r => ⟨r, rf + (t.return_ - rf) / t.risk * r⟩)
  else []

/-- Lines 234-252: the `LinAlgError` fallback response, an equal-weight
tangency (`np.ones(n)/n`) with empty frontier and CML lists. -/
def equalWeightResponse (sqrtQ : ℚ → ℚ) (tickers : List String) (mu : List ℚ)
    (cov : List (List ℚ)) (rf : ℚ) : EfficientFrontierResponse :=
  let n := mu.length
  let w := List.replicate n ((n : ℚ)⁻¹)
  let ret := dotQ mu w
  let risk := sqrtQ (quadFormQ cov w)
  ⟨[], ⟨risk, ret, if 0 < risk then (ret - rf) / risk else 0, tickers.zip w⟩, []⟩

/-- The successful-path response of lines 152-232, given the
minimum-variance and maximum-return solutions `wmin`, `wmax`: sweep the
targets, select the tangency (falling back to the minimum-variance
tangency), and build the CML. -/
def mainResponse (solver : QProblem → SolveResult) (sqrtQ : ℚ → ℚ) (tickers : List String)
    (mu : List ℚ) (cov : List (List ℚ)) (rf : ℚ) (allowShort : Bool) (maxW : ℚ)
    (wmin wmax : List ℚ) : EfficientFrontierResponse :=
  let frontier := buildFrontier solver sqrtQ tickers mu cov allowShort maxW
    (frontierTargets (dotQ mu wmin) (dotQ mu wmax))
  let tangency := (selectTangency rf frontier).getD (minVarTangency sqrtQ tickers mu cov rf wmin)
  ⟨frontier, tangency, buildCML rf tangency frontier⟩

/-- Detail string of the failed min-variance solve (line 130, wrapped by
the generic handler of line 255). -/
def minVarMsg : String := "Error calculating efficient frontier: Min variance optimization failed"

/-- Detail string of the failed max-return solve (line 148, wrapped by the
generic handler of line 255). -/
def maxRetMsg : String := "Error calculating efficient frontier: Max return optimization failed"

/-- The optimizer core, lines 97-252: try the matrix inversion (`none`
models a raised `LinAlgError`, taking the equal-weight fallback), then the
two preliminary solves (a non-optimal status or missing value raises, and
the generic handler turns it into a 500), then the main path. -/
def efficientFrontierCore (solver : QProblem → SolveResult) (sqrtQ : ℚ → ℚ)
    (inv : List (List ℚ) → Option (List (List ℚ))) (tickers : List String)
    (mu : List ℚ) (cov : List (List ℚ)) (rf : ℚ) (allowShort : Bool) (maxW : ℚ) :
    Except ApiError EfficientFrontierResponse :=
  match inv cov with
  | none => .ok (equalWeightResponse sqrtQ tickers mu cov rf)
  | some _ =>
    match (solver (minVarProblem mu cov allowShort maxW)).status,
        (solver (minVarProblem mu cov allowShort maxW)).value with
    | .optimal, some wmin =>
      match (solver (maxRetProblem mu cov allowShort maxW)).status,
          (solver (maxRetProblem mu cov allowShort maxW)).value with
      | .optimal, some wmax =>
        .ok (mainResponse solver sqrtQ tickers mu cov rf allowShort maxW wmin wmax)
      | _, _ => .error (.http 500 maxRetMsg)
    | _, _ => .error (.http 500 minVarMsg)

/-- Line 64: the annualization factor derived from the request interval
(`"1d"` to 252, `"1wk"` to 52, `"1mo"` to 12, default 252). -/
def annualizationFactor (s : String) : ℚ :=
  if s = "1d" then 252 else if s = "1wk" then 52 else if s = "1mo" then 12 else 252

/-- All entries of a list of options, or `none` when any entry is `none`
(used to route a NaN statistic to the generic failure, see
`calculate_efficient_frontier`). -/
def allSome {α : Type} : List (Option α) → Option (List α)
  | [] => some []
  | none :: _ => none
  | some x :: r => (allSome r).map (x :: ·)

/-- pandas `Series.mean` with the default `skipna=True`: the mean of the
non-NaN entries of a column, NaN (`none`) when no entry remains. -/
def pandasMean (c : List (Option ℚ)) : Option ℚ :=
  if (c.filterMap id).length = 0 then none
  else some ((c.filterMap id).sum / ((c.filterMap id).length : ℚ))

/-- The index pairs at which both columns are non-NaN (pandas pairwise
complete observations). -/
def pairComplete (x y : List (Option ℚ)) : List (ℚ × ℚ) :=
  (x.zip y).filterMap (fun p =>
    match p with
    | (some a, some b) => some (a, b)
    | _ => none)

/-- pandas `DataFrame.cov` for one pair of columns: the sample covariance
(denominator `n - 1`) over pairwise complete observations, NaN (`none`)
when fewer than 2 such observations exist. -/
def pandasCov (x y : List (Option ℚ)) : Option ℚ :=
  if (pairComplete x y).length < 2 then none
  else
    some ((((pairComplete x y).map (fun p =>
        (p.1 - ((pairComplete x y).map Prod.fst).sum / (((pairComplete x y).length : ℕ) : ℚ)) *
        (p.2 - ((pairComplete x y).map Prod.snd).sum / (((pairComplete x y).length : ℕ) : ℚ)))).sum) /
      ((((pairComplete x y).length : ℕ) : ℚ) - 1))

/-- Lines 54-56: building `returns_df` by assigning one column per ticker.
The first assigned column fixes the index length; a later column of a
different length makes pandas raise `ValueError` (there is no truncation),
which the generic handler of line 255 turns into a 500.  On success the
columns are kept unchanged. -/
def buildReturnMatrix (cols : List (List (Option ℚ))) : Except Unit (List (List (Option ℚ))) :=
  match cols with
  | [] => .ok []
  | c :: cs => if cs.all (fun d => d.length = c.length) then .ok (c :: cs) else .error ()

/-- The per-asset return columns of a request, in insertion order. -/
def requestColumns (req : EfficientFrontierRequest) : List (List (Option ℚ)) :=
  req.returns.map (fun p => p.2.map (·.ret))

/-- The tickers of a request, in insertion order (`returns_df.columns`). -/
def requestTickers (req : EfficientFrontierRequest) : List String :=
  req.returns.map (·.1)

/-- Line 67: `returns_df.mean().values * annualization`, `none` when any
column mean is NaN. -/
def estimateMu (cols : List (List (Option ℚ))) (ann : ℚ) : Option (List ℚ) :=
  allSome (cols.map (fun c => (pandasMean c).map (· * ann)))

/-- Line 68: `returns_df.cov().values * annualization`, `none` when any
entry of the covariance matrix is NaN. -/
def estimateCov (cols : List (List (Option ℚ))) (ann : ℚ) : Option (List (List ℚ)) :=
  allSome (cols.map (fun ci => allSome (cols.map (fun cj => (pandasCov ci cj).map (· * ann)))))

/-- Detail string of the 500 raised when the column lengths differ
(the pandas `ValueError` of line 56 wrapped by line 255). -/
def lengthMismatchMsg : String :=
  "Error calculating efficient frontier: mismatched return series lengths"

/-- Detail string of the 500 raised when a NaN statistic reaches cvxpy
(`quad_form` rejects a NaN matrix; wrapped by line 255). -/
def statsMsg : String :=
  "Error calculating efficient frontier: statistics contain invalid values"

/-- The whole endpoint handler of lines 51-255: build the data frame,
estimate `mu` and `cov` with pandas semantics, and run the optimizer core.
A NaN in the statistics makes cvxpy raise when the first problem is built,
so it reaches the generic 500 handler; a column-length mismatch raises in
pandas and reaches the same handler. -/
def calculate_efficient_frontier (solver : QProblem → SolveResult) (sqrtQ : ℚ → ℚ)
    (inv : List (List ℚ) → Option (List (List ℚ))) (req : EfficientFrontierRequest) :
    Except ApiError EfficientFrontierResponse :=
  match buildReturnMatrix (requestColumns req) with
  | .error _ => .error (.http 500 lengthMismatchMsg)
  | .ok cols =>
    match estimateMu cols (annualizationFactor req.interval),
        estimateCov cols (annualizationFactor req.interval) with
    | some mu, some cov =>
      efficientFrontierCore solver sqrtQ inv (requestTickers req) mu cov
        req.rf req.allow_short req.max_weight
    | _, _ => .error (.http 500 statsMsg)

/-- Sum of the weights of a frontier point (the response exposes the
weight dict; its values sum is what the spec constrains). -/
def pointWeightSum (pt : EfficientFrontierPoint) : ℚ :=
  (pt.weights.map Prod.snd).sum

/-- Minimum column length of a list of columns (python
`min(map(len, cols))`, 0 on an empty list). -/
def minLen (cols : List (List (Option ℚ))) : ℕ :=
  match cols.map List.length with
  | [] => 0
  | x :: xs => xs.foldl min x

/-- Modelled from the spec (refinement target, not from the source):
the return matrix the spec describes, built by truncating every series to
the minimum length, zipping them into rows, and dropping every row that
contains a missing entry. -/
def returnMatrixSpec (cols : List (List (Option ℚ))) : List (List ℚ) :=
  ((List.range (minLen cols)).map (fun i => cols.map (fun c => c.getD i none))).filterMap allSome

/-- A concrete exact solver for one-asset problems, used to run the
pipeline on closed inputs: with one asset the only vector summing to 1 is
`[1]`, so the problem is solved by `[1]` exactly when `[1]` is feasible,
and is infeasible otherwise.  Problems over any other dimension are
reported as failed. -/
def oneAssetSolver : QProblem → SolveResult := fun p =>
  if p.mu.length = 1 ∧ feasibleB p [1] = true then ⟨.optimal, some [1]⟩ else ⟨.failed, none⟩

/-- A concrete solver for the two-asset demonstration input
`mu = [1/10, 1/20]`, `cov = [[1/25, 0], [0, 1/100]]`, long-only, no cap:
the exact minimum-variance weights over the simplex are `[1/5, 4/5]`
(where the derivative of `a ^ 2 / 25 + (1 - a) ^ 2 / 100` vanishes) and
the exact maximum-return weights are `[1, 0]`; per-target solves are
reported as failed. -/
def solver2 : QProblem → SolveResult := fun p =>
  match p.objective, p.target with
  | .minVar, none => ⟨.optimal, some [1 / 5, 4 / 5]⟩
  | .maxRet, none => ⟨.optimal, some [1, 0]⟩
  | _, _ => ⟨.failed, none⟩

/-- A matrix inversion that succeeds (the computed inverse is dead code in
the source, so the identity is as good as the true inverse). -/
def invOk : List (List ℚ) → Option (List (List ℚ)) := fun m => some m

/-- A matrix inversion that raises `LinAlgError` on every input. -/
def invFail : List (List ℚ) → Option (List (List ℚ)) := fun _ => none

/-- Demonstration one-asset statistics. -/
def tick1 : List String := ["A"]

/-- Demonstration one-asset mean vector. -/
def mu1 : List ℚ := [1 / 10]

/-- Demonstration one-asset covariance. -/
def cov1 : List (List ℚ) := [[1 / 25]]

/-- A full run of the optimizer core on the one-asset demonstration input
(risk-free rate 0, shorting allowed, no cap), with `np.sqrt` instantiated
by the identity (every property proved about the runs only needs that the
square root preserves signs, which the identity does). -/
def demoRun1 : Except ApiError EfficientFrontierResponse :=
  efficientFrontierCore oneAssetSolver id invOk tick1 mu1 cov1 0 true 1

/-- The response of `demoRun1`. -/
def demoResp1 : EfficientFrontierResponse := demoRun1.toOption.getD default

/-- The target sweep of `demoRun1` (one asset: the minimum-variance and
maximum-return returns both equal `1/10`). -/
def demoTargets1 : List ℚ := frontierTargets (1 / 10) (1 / 10)

/-- The frontier of `demoRun1`, built directly from the sweep. -/
def demoFrontier1 : List EfficientFrontierPoint :=
  buildFrontier oneAssetSolver id tick1 mu1 cov1 true 1 demoTargets1

/-- The first accepted point of `demoFrontier1`. -/
def demoPt1 : EfficientFrontierPoint := demoFrontier1.headI

/-- Demonstration two-asset mean vector. -/
def mu2 : List ℚ := [1 / 10, 1 / 20]

/-- Demonstration two-asset covariance (uncorrelated, volatilities 1/5 and
1/10). -/
def cov2 : List (List ℚ) := [[1 / 25, 0], [0, 1 / 100]]

/-- Demonstration two-asset tickers. -/
def tick2 : List String := ["A", "B"]

/-- A full run of the optimizer core on the two-asset demonstration input
(risk-free rate 0, long only, no cap). -/
def demoRun2 : Except ApiError EfficientFrontierResponse :=
  efficientFrontierCore solver2 id invOk tick2 mu2 cov2 0 false 1

/-- The response of `demoRun2`. -/
def demoResp2 : EfficientFrontierResponse := demoRun2.toOption.getD default

/-- A request with a single asset and a single observation (fewer than 2
usable observations, so the sample covariance is NaN). -/
def req1obs : EfficientFrontierRequest :=
  ⟨[("A", [⟨"2024-01-02", some (1 / 10)⟩])], 0, true, 1, "1d"⟩

/-- A request with a negative per-asset weight cap (malformed input that
passes schema validation: `max_weight` is an unvalidated float). -/
def reqNegCap : EfficientFrontierRequest :=
  ⟨[("A", [⟨"2024-01-02", some (1 / 10)⟩, ⟨"2024-01-03", some 0⟩])], 0, true, -1, "1d"⟩

/-- A request whose two return series have different lengths. -/
def reqMismatch : EfficientFrontierRequest :=
  ⟨[("A", [⟨"2024-01-02", some 1⟩, ⟨"2024-01-03", some 2⟩, ⟨"2024-01-04", some 3⟩]),
    ("B", [⟨"2024-01-02", some 4⟩, ⟨"2024-01-03", some 5⟩])], 0, true, 1, "1d"⟩

/-- A run of the optimizer core in which the matrix inversion raises
`LinAlgError` (the equal-weight fallback path). -/
def demoRun3 : Except ApiError EfficientFrontierResponse :=
  efficientFrontierCore oneAssetSolver id invFail tick1 mu1 cov1 0 true 1

/-- The response of `demoRun3`. -/
def demoResp3 : EfficientFrontierResponse := demoRun3.toOption.getD default

lemma linspace_length (a b : ℚ) (n : ℕ) : (linspace a b n).length = n := by
  unfold linspace
  rw [List.length_map, List.length_range]

lemma linspace_getElem (a b : ℚ) {i n : ℕ} (h : i < n) :
    (linspace a b n)[i]? = some (a + (b - a) * i / ((n : ℚ) - 1)) := by
  unfold linspace
  rw [List.getElem?_map, List.getElem?_range h, Option.map_some']

lemma linspace_zero (a b : ℚ) : (linspace a b 50)[0]? = some a := by
  rw [linspace_getElem a b (by norm_num)]
  norm_num

lemma linspace_last (a b : ℚ) : (linspace a b 50)[49]? = some b := by
  rw [linspace_getElem a b (by norm_num)]
  congr 1
  have h49 : ((50 : ℕ) : ℚ) - 1 = 49 := by norm_num
  rw [h49]
  push_cast
  field_simp

lemma linspace_pairwise (a b : ℚ) (hab : a ≤ b) :
    (linspace a b 50).Pairwise (· ≤ ·) := by
  unfold linspace
  refine List.Pairwise.map _ ?_ (List.pairwise_lt_range 50)
  intro i j hij
  have hi : (i : ℚ) ≤ (j : ℚ) := by exact_mod_cast hij.le
  have hmul : (b - a) * i ≤ (b - a) * j :=
    mul_le_mul_of_nonneg_left hi (by linarith)
  have hden : (0 : ℚ) < ((50 : ℕ) : ℚ) - 1 := by norm_num
  have hdiv : (b - a) * i / (((50 : ℕ) : ℚ) - 1) ≤ (b - a) * j / (((50 : ℕ) : ℚ) - 1) := by
    gcongr
  linarith

lemma frontierTargets_length (minR maxR : ℚ) : (frontierTargets minR maxR).length = 50 := by
  simp [frontierTargets, linspace_length]

lemma frontierTargets_head (minR maxR : ℚ) :
    (frontierTargets minR maxR)[0]? = some (minR * (19 / 20)) := by
  simp [frontierTargets, linspace_zero]

lemma frontierTargets_last (minR maxR : ℚ) :
    (frontierTargets minR maxR)[49]? = some (adjustedMaxReturn minR maxR * (21 / 20)) := by
  simp [frontierTargets, linspace_last]

lemma frontierStep_eq_some_iff (solver : QProblem → SolveResult) (sqrtQ : ℚ → ℚ)
    (tickers : List String) (mu : List ℚ) (cov : List (List ℚ)) (aS : Bool) (mW : ℚ)
    (t : ℚ) (pt : EfficientFrontierPoint) :
    frontierStep solver sqrtQ tickers mu cov aS mW t = some pt ↔
      ∃ w, (solver (targetProblem mu cov aS mW t)).status = .optimal ∧
        (solver (targetProblem mu cov aS mW t)).value = some w ∧
        0 < sqrtQ (quadFormQ cov w) ∧
        pt = ⟨sqrtQ (quadFormQ cov w), dotQ mu w, tickers.zip w⟩ := by
  rcases hs : solver (targetProblem mu cov aS mW t) with ⟨st, val⟩
  unfold frontierStep
  rw [hs]
  cases st with
  | optimal =>
    cases val with
    | none => simp
    | some w =>
      by_cases hr : 0 < sqrtQ (quadFormQ cov w)
      · simp [hr, eq_comm]
      · simp [hr]
  | failed => simp

lemma mem_buildFrontier_iff (solver : QProblem → SolveResult) (sqrtQ : ℚ → ℚ)
    (tickers : List String) (mu : List ℚ) (cov : List (List ℚ)) (aS : Bool) (mW : ℚ)
    (targets : List ℚ) (pt : EfficientFrontierPoint) :
    pt ∈ buildFrontier solver sqrtQ tickers mu cov aS mW targets ↔
      ∃ t ∈ targets, ∃ w,
        (solver (targetProblem mu cov aS mW t)).status = .optimal ∧
        (solver (targetProblem mu cov aS mW t)).value = some w ∧
        0 < sqrtQ (quadFormQ cov w) ∧
        pt = ⟨sqrtQ (quadFormQ cov w), dotQ mu w, tickers.zip w⟩ := by
  unfold buildFrontier
  rw [List.mem_filterMap]
  constructor
  · rintro ⟨t, ht, hstep⟩
    exact ⟨t, ht, (frontierStep_eq_some_iff solver sqrtQ tickers mu cov aS mW t pt).mp hstep⟩
  · rintro ⟨t, ht, hw⟩
    exact ⟨t, ht, (frontierStep_eq_some_iff solver sqrtQ tickers mu cov aS mW t pt).mpr hw⟩

lemma buildFrontier_risk_pos (solver : QProblem → SolveResult) (sqrtQ : ℚ → ℚ)
    (tickers : List String) (mu : List ℚ) (cov : List (List ℚ)) (aS : Bool) (mW : ℚ)
    (targets : List ℚ) (pt : EfficientFrontierPoint)
    (h : pt ∈ buildFrontier solver sqrtQ tickers mu cov aS mW targets) : 0 < pt.risk := by
  rcases (mem_buildFrontier_iff solver sqrtQ tickers mu cov aS mW targets pt).mp h with
    ⟨t, _, w, _, _, hr, hpt⟩
  rw [hpt]
  exact hr

lemma tangencyOfPoint_sharpe (rf : ℚ) (p : EfficientFrontierPoint) :
    (tangencyOfPoint rf p).sharpe = sharpeOf rf p := rfl

lemma tangencyStep_pos_none (rf : ℚ) (p : EfficientFrontierPoint) (hpos : 0 < p.risk) :
    tangencyStep rf none p = some (tangencyOfPoint rf p) := by
  unfold tangencyStep
  rw [if_pos hpos]

lemma tangencyStep_pos_some (rf : ℚ) (p : EfficientFrontierPoint) (a : Tangency)
    (hpos : 0 < p.risk) :
    tangencyStep rf (some a) p =
      if a.sharpe < sharpeOf rf p then some (tangencyOfPoint rf p) else some a := by
  unfold tangencyStep
  rw [if_pos hpos]

lemma tangencyStep_nonpos (rf : ℚ) (p : EfficientFrontierPoint) (acc : Option Tangency)
    (hpos : ¬ 0 < p.risk) : tangencyStep rf acc p = acc := by
  unfold tangencyStep
  rw [if_neg hpos]

lemma tangencyStep_ne_none (rf : ℚ) (p : EfficientFrontierPoint) (acc : Option Tangency)
    (hpos : 0 < p.risk) : tangencyStep rf acc p ≠ none := by
  rcases acc with _ | a
  · rw [tangencyStep_pos_none rf p hpos]
    exact Option.noConfusion
  · rw [tangencyStep_pos_some rf p a hpos]
    by_cases hs : a.sharpe < sharpeOf rf p
    · rw [if_pos hs]; exact Option.noConfusion
    · rw [if_neg hs]; exact Option.noConfusion

lemma foldl_tangencyStep_eq_none (rf : ℚ) (pts : List EfficientFrontierPoint) :
    ∀ acc : Option Tangency, pts.foldl (tangencyStep rf) acc = none →
      acc = none ∧ ∀ p ∈ pts, ¬ 0 < p.risk := by
  induction pts with
  | nil => intro acc h; exact ⟨h, by simp⟩
  | cons p pts ih =>
    intro acc h
    rw [List.foldl_cons] at h
    obtain ⟨hstep, hrest⟩ := ih (tangencyStep rf acc p) h
    have hp : ¬ 0 < p.risk := by
      intro hpos
      exact tangencyStep_ne_none rf p acc hpos hstep
    have hacc : acc = none := by
      rw [tangencyStep_nonpos rf p acc hp] at hstep
      exact hstep
    refine ⟨hacc, ?_⟩
    intro q hq
    rcases List.mem_cons.mp hq with rfl | hq
    · exact hp
    · exact hrest q hq

lemma foldl_tangencyStep_eq_some (rf : ℚ) (pts : List EfficientFrontierPoint) :
    ∀ (acc : Option Tangency) (t : Tangency), pts.foldl (tangencyStep rf) acc = some t →
      (acc = some t ∨ ∃ p ∈ pts, 0 < p.risk ∧ t = tangencyOfPoint rf p) ∧
      (∀ q ∈ pts, 0 < q.risk → sharpeOf rf q ≤ t.sharpe) ∧
      (∀ a, acc = some a → a.sharpe ≤ t.sharpe) := by
  induction pts with
  | nil =>
    intro acc t h
    rw [List.foldl_nil] at h
    refine ⟨Or.inl h, by simp, ?_⟩
    intro a ha
    rw [h] at ha
    cases ha
    exact le_refl _
  | cons p pts ih =>
    intro acc t h
    rw [List.foldl_cons] at h
    obtain ⟨horig, hdom, hacc⟩ := ih (tangencyStep rf acc p) t h
    have hstep_dom : ∀ a, tangencyStep rf acc p = some a → a.sharpe ≤ t.sharpe := hacc
    by_cases hpos : 0 < p.risk
    · have hstep_val : (acc = none ∧ tangencyStep rf acc p = some (tangencyOfPoint rf p)) ∨
          (∃ a, acc = some a ∧
            ((a.sharpe < sharpeOf rf p ∧ tangencyStep rf acc p = some (tangencyOfPoint rf p)) ∨
             (¬ a.sharpe < sharpeOf rf p ∧ tangencyStep rf acc p = some a))) := by
        rcases acc with _ | a
        · exact Or.inl ⟨rfl, tangencyStep_pos_none rf p hpos⟩
        · refine Or.inr ⟨a, rfl, ?_⟩
          rw [tangencyStep_pos_some rf p a hpos]
          by_cases hs : a.sharpe < sharpeOf rf p
          · exact Or.inl ⟨hs, by rw [if_pos hs]⟩
          · exact Or.inr ⟨hs, by rw [if_neg hs]⟩
      have hp_le : sharpeOf rf p ≤ t.sharpe := by
        rcases hstep_val with ⟨_, hv⟩ | ⟨a, _, ⟨_, hv⟩ | ⟨hs, hv⟩⟩
        · have := hstep_dom _ hv
          rwa [tangencyOfPoint_sharpe] at this
        · have := hstep_dom _ hv
          rwa [tangencyOfPoint_sharpe] at this
        · have := hstep_dom _ hv
          exact le_trans (not_lt.mp hs) this
      refine ⟨?_, ?_, ?_⟩
      · rcases horig with heq | ⟨q, hq, hqr, hqt⟩
        · rcases hstep_val with ⟨_, hv⟩ | ⟨a, haeq, ⟨_, hv⟩ | ⟨_, hv⟩⟩
          · rw [heq] at hv
            cases hv
            exact Or.inr ⟨p, List.mem_cons_self p pts, hpos, rfl⟩
          · rw [heq] at hv
            cases hv
            exact Or.inr ⟨p, List.mem_cons_self p pts, hpos, rfl⟩
          · rw [heq] at hv
            cases hv
            exact Or.inl haeq
        · exact Or.inr ⟨q, List.mem_cons_of_mem p hq, hqr, hqt⟩
      · intro q hq hqr
        rcases List.mem_cons.mp hq with rfl | hq
        · exact hp_le
        · exact hdom q hq hqr
      · intro a ha
        rcases hstep_val with ⟨hnone, _⟩ | ⟨a', ha', ⟨hs, hv⟩ | ⟨_, hv⟩⟩
        · rw [hnone] at ha; exact Option.noConfusion ha
        · rw [ha'] at ha
          cases ha
          have := hstep_dom _ hv
          rw [tangencyOfPoint_sharpe] at this
          exact le_trans (le_of_lt hs) this
        · rw [ha'] at ha
          cases ha
          exact hstep_dom _ hv
    · have hstep_eq : tangencyStep rf acc p = acc := tangencyStep_nonpos rf p acc hpos
      rw [hstep_eq] at horig hacc
      refine ⟨?_, ?_, hacc⟩
      · rcases horig with heq | ⟨q, hq, hqr, hqt⟩
        · exact Or.inl heq
        · exact Or.inr ⟨q, List.mem_cons_of_mem p hq, hqr, hqt⟩
      · intro q hq hqr
        rcases List.mem_cons.mp hq with rfl | hq
        · exact absurd hqr hpos
        · exact hdom q hq hqr

lemma selectTangency_eq_none (rf : ℚ) (pts : List EfficientFrontierPoint)
    (h : selectTangency rf pts = none) : ∀ p ∈ pts, ¬ 0 < p.risk :=
  (foldl_tangencyStep_eq_none rf pts none h).2

lemma selectTangency_eq_some (rf : ℚ) (pts : List EfficientFrontierPoint) (t : Tangency)
    (h : selectTangency rf pts = some t) :
    (∃ p ∈ pts, 0 < p.risk ∧ t = tangencyOfPoint rf p) ∧
      ∀ q ∈ pts, 0 < q.risk → sharpeOf rf q ≤ t.sharpe := by
  obtain ⟨horig, hdom, _⟩ := foldl_tangencyStep_eq_some rf pts none t h
  rcases horig with heq | hex
  · exact Option.noConfusion heq
  · exact ⟨hex, hdom⟩

lemma core_eq_main (solver : QProblem → SolveResult) (sqrtQ : ℚ → ℚ)
    (inv : List (List ℚ) → Option (List (List ℚ))) (tickers : List String)
    (mu : List ℚ) (cov : List (List ℚ)) (rf : ℚ) (aS : Bool) (mW : ℚ)
    (covi : List (List ℚ)) (wmin wmax : List ℚ)
    (hinv : inv cov = some covi)
    (hmin : solver (minVarProblem mu cov aS mW) = ⟨.optimal, some wmin⟩)
    (hmax : solver (maxRetProblem mu cov aS mW) = ⟨.optimal, some wmax⟩) :
    efficientFrontierCore solver sqrtQ inv tickers mu cov rf aS mW =
      .ok (mainResponse solver sqrtQ tickers mu cov rf aS mW wmin wmax) := by
  unfold efficientFrontierCore
  rw [hinv, hmin, hmax]

lemma allSome_eq_none {α : Type} (l : List (Option α)) (h : none ∈ l) : allSome l = none := by
  induction l with
  | nil => cases h
  | cons x r ih =>
    rcases List.mem_cons.mp h with heq | hmem
    · rw [← heq]
      rfl
    · cases x with
      | none => rfl
      | some v =>
        unfold allSome
        rw [ih hmem]
        rfl

lemma feasibleB_sum_one (p : QProblem) (w : List ℚ) (h : feasibleB p w = true) : w.sum = 1 := by
  unfold feasibleB at h
  simp only [Bool.and_eq_true, decide_eq_true_eq] at h
  exact h.1.1.1.2

lemma feasibleB_length (p : QProblem) (w : List ℚ) (h : feasibleB p w = true) :
    w.length = p.mu.length := by
  unfold feasibleB at h
  simp only [Bool.and_eq_true, decide_eq_true_eq] at h
  exact h.1.1.1.1

lemma oneAssetSolver_sound : SolverSound oneAssetSolver := by
  intro p w hst hval
  unfold oneAssetSolver at hst hval
  by_cases hc : p.mu.length = 1 ∧ feasibleB p [1] = true
  · rw [if_pos hc] at hval
    cases hval
    exact hc.2
  · rw [if_neg hc] at hst
    cases hst

lemma le_foldl_max (x : ℚ) (l : List ℚ) : x ≤ l.foldl max x := by
  induction l generalizing x with
  | nil => exact le_refl x
  | cons y ys ih =>
    rw [List.foldl_cons]
    exact le_trans (le_max_left x y) (ih (max x y))

lemma pythonMax_pos (l : List ℚ) (m : ℚ) (hall : ∀ x ∈ l, 0 < x)
    (h : pythonMax l = some m) : 0 < m := by
  cases l with
  | nil => cases h
  | cons x xs =>
    unfold pythonMax at h
    cases h
    exact lt_of_lt_of_le (hall x (List.mem_cons_self x xs)) (le_foldl_max x xs)

lemma core_ok_cases (solver : QProblem → SolveResult) (sqrtQ : ℚ → ℚ)
    (inv : List (List ℚ) → Option (List (List ℚ))) (tickers : List String)
    (mu : List ℚ) (cov : List (List ℚ)) (rf : ℚ) (aS : Bool) (mW : ℚ)
    (resp : EfficientFrontierResponse)
    (h : efficientFrontierCore solver sqrtQ inv tickers mu cov rf aS mW = .ok resp) :
    resp = equalWeightResponse sqrtQ tickers mu cov rf ∨
      ∃ wmin wmax, solver (minVarProblem mu cov aS mW) = ⟨.optimal, some wmin⟩ ∧
        solver (maxRetProblem mu cov aS mW) = ⟨.optimal, some wmax⟩ ∧
        resp = mainResponse solver sqrtQ tickers mu cov rf aS mW wmin wmax := by
  unfold efficientFrontierCore at h
  rcases hi : inv cov with _ | covi
  · rw [hi] at h
    cases h
    exact Or.inl rfl
  · rw [hi] at h
    rcases hmin : solver (minVarProblem mu cov aS mW) with ⟨st1, val1⟩
    rw [hmin] at h
    cases st1 with
    | failed => cases h
    | optimal =>
      cases val1 with
      | none => cases h
      | some wmin =>
        rcases hmax : solver (maxRetProblem mu cov aS mW) with ⟨st2, val2⟩
        rw [hmax] at h
        cases st2 with
        | failed => cases h
        | optimal =>
          cases val2 with
          | none => cases h
          | some wmax =>
            cases h
            exact Or.inr ⟨wmin, wmax, rfl, rfl, rfl⟩

lemma mainResponse_frontier (solver : QProblem → SolveResult) (sqrtQ : ℚ → ℚ)
    (tickers : List String) (mu : List ℚ) (cov : List (List ℚ)) (rf : ℚ)
    (aS : Bool) (mW : ℚ) (wmin wmax : List ℚ) :
    (mainResponse solver sqrtQ tickers mu cov rf aS mW wmin wmax).frontier =
      buildFrontier solver sqrtQ tickers mu cov aS mW
        (frontierTargets (dotQ mu wmin) (dotQ mu wmax)) := rfl

lemma mainResponse_tangency (solver : QProblem → SolveResult) (sqrtQ : ℚ → ℚ)
    (tickers : List String) (mu : List ℚ) (cov : List (List ℚ)) (rf : ℚ)
    (aS : Bool) (mW : ℚ) (wmin wmax : List ℚ) :
    (mainResponse solver sqrtQ tickers mu cov rf aS mW wmin wmax).tangency =
      (selectTangency rf
          ((mainResponse solver sqrtQ tickers mu cov rf aS mW wmin wmax).frontier)).getD
        (minVarTangency sqrtQ tickers mu cov rf wmin) := rfl

lemma mainResponse_cml (solver : QProblem → SolveResult) (sqrtQ : ℚ → ℚ)
    (tickers : List String) (mu : List ℚ) (cov : List (List ℚ)) (rf : ℚ)
    (aS : Bool) (mW : ℚ) (wmin wmax : List ℚ) :
    (mainResponse solver sqrtQ tickers mu cov rf aS mW wmin wmax).cml =
      buildCML rf (mainResponse solver sqrtQ tickers mu cov rf aS mW wmin wmax).tangency
        (mainResponse solver sqrtQ tickers mu cov rf aS mW wmin wmax).frontier := rfl

lemma core_ok_frontier_risk_pos (solver : QProblem → SolveResult) (sqrtQ : ℚ → ℚ)
    (inv : List (List ℚ) → Option (List (List ℚ))) (tickers : List String)
    (mu : List ℚ) (cov : List (List ℚ)) (rf : ℚ) (aS : Bool) (mW : ℚ)
    (resp : EfficientFrontierResponse)
    (h : efficientFrontierCore solver sqrtQ inv tickers mu cov rf aS mW = .ok resp) :
    ∀ p ∈ resp.frontier, 0 < p.risk := by
  rcases core_ok_cases solver sqrtQ inv tickers mu cov rf aS mW resp h with heq | ⟨wmin, wmax, _, _, heq⟩
  · rw [heq]
    intro p hp
    cases hp
  · rw [heq, mainResponse_frontier]
    intro p hp
    exact buildFrontier_risk_pos solver sqrtQ tickers mu cov aS mW _ p hp

/-- C1, counterexample: on the two-asset input `mu = [1/10, 1/20]`,
`cov = [[1/25, 0], [0, 1/100]]` (long only, no cap) the exact
minimum-variance and maximum-return solves give `min_return = 3/50` and
`max_return = 1/10`, and the sweep's last target is
`max_return * 1.05 = 21/200 = 0.105`, which is not near
`max(mu) * 1.5 = 3/20 = 0.15` (it is off by 30 percent, far more than a
10-percent neighbourhood). -/
theorem C1_counterexample :
    solver2 (minVarProblem mu2 cov2 false 1) = ⟨.optimal, some [1 / 5, 4 / 5]⟩ ∧
    solver2 (maxRetProblem mu2 cov2 false 1) = ⟨.optimal, some [1, 0]⟩ ∧
    dotQ mu2 [1 / 5, 4 / 5] = 3 / 50 ∧
    dotQ mu2 [1, 0] = 1 / 10 ∧
    pythonMax mu2 = some (1 / 10) ∧
    (frontierTargets (3 / 50) (1 / 10))[49]? = some (21 / 200) ∧
    ¬ |(21 : ℚ) / 200 - 3 / 2 * (1 / 10)| ≤ 1 / 10 * (3 / 2 * (1 / 10)) := by
  refine ⟨rfl, rfl, by with_unfolding_all rfl, by with_unfolding_all rfl,
    by with_unfolding_all rfl, ?_, by with_unfolding_all decide⟩
  rw [frontierTargets_last]
  with_unfolding_all rfl

/-- C1, amended: when the inversion and the two preliminary solves
succeed, the frontier is built from a sweep of exactly 50 target returns
(so a count in 30-50), running from `min_return * 0.95` up to
`adjustedMaxReturn * 1.05`, where `adjustedMaxReturn` is the solved
maximum portfolio return (rescaled to `min_return * 1.5` when
`min_return >= max_return`) - not a bound near `max(mu) * 1.5`. -/
theorem C1_amended_sweep (solver : QProblem → SolveResult) (sqrtQ : ℚ → ℚ)
    (inv : List (List ℚ) → Option (List (List ℚ))) (tickers : List String)
    (mu : List ℚ) (cov : List (List ℚ)) (rf : ℚ) (aS : Bool) (mW : ℚ)
    (covi : List (List ℚ)) (wmin wmax : List ℚ) (resp : EfficientFrontierResponse)
    (hinv : inv cov = some covi)
    (hmin : solver (minVarProblem mu cov aS mW) = ⟨.optimal, some wmin⟩)
    (hmax : solver (maxRetProblem mu cov aS mW) = ⟨.optimal, some wmax⟩)
    (h : efficientFrontierCore solver sqrtQ inv tickers mu cov rf aS mW = .ok resp) :
    resp.frontier = buildFrontier solver sqrtQ tickers mu cov aS mW
        (frontierTargets (dotQ mu wmin) (dotQ mu wmax)) ∧
    (frontierTargets (dotQ mu wmin) (dotQ mu wmax)).length = 50 ∧
    30 ≤ (frontierTargets (dotQ mu wmin) (dotQ mu wmax)).length ∧
    (frontierTargets (dotQ mu wmin) (dotQ mu wmax))[0]? = some (dotQ mu wmin * (19 / 20)) ∧
    (frontierTargets (dotQ mu wmin) (dotQ mu wmax))[49]? =
      some (adjustedMaxReturn (dotQ mu wmin) (dotQ mu wmax) * (21 / 20)) := by
  rw [core_eq_main solver sqrtQ inv tickers mu cov rf aS mW covi wmin wmax hinv hmin hmax] at h
  have hresp : resp = mainResponse solver sqrtQ tickers mu cov rf aS mW wmin wmax := by
    cases h
    rfl
  subst hresp
  refine ⟨rfl, frontierTargets_length _ _, ?_, frontierTargets_head _ _, frontierTargets_last _ _⟩
  rw [frontierTargets_length]
  norm_num

/-- C1, witness: the amended sweep theorem applied to the concrete
two-asset run `demoRun2`. -/
theorem C1_witness :
    invOk cov2 = some cov2 ∧
    solver2 (minVarProblem mu2 cov2 false 1) = ⟨.optimal, some [1 / 5, 4 / 5]⟩ ∧
    solver2 (maxRetProblem mu2 cov2 false 1) = ⟨.optimal, some [1, 0]⟩ ∧
    efficientFrontierCore solver2 id invOk tick2 mu2 cov2 0 false 1 = .ok demoResp2 ∧
    (demoResp2.frontier = buildFrontier solver2 id tick2 mu2 cov2 false 1
        (frontierTargets (dotQ mu2 [1 / 5, 4 / 5]) (dotQ mu2 [1, 0])) ∧
      (frontierTargets (dotQ mu2 [1 / 5, 4 / 5]) (dotQ mu2 [1, 0])).length = 50 ∧
      30 ≤ (frontierTargets (dotQ mu2 [1 / 5, 4 / 5]) (dotQ mu2 [1, 0])).length ∧
      (frontierTargets (dotQ mu2 [1 / 5, 4 / 5]) (dotQ mu2 [1, 0]))[0]? =
        some (dotQ mu2 [1 / 5, 4 / 5] * (19 / 20)) ∧
      (frontierTargets (dotQ mu2 [1 / 5, 4 / 5]) (dotQ mu2 [1, 0]))[49]? =
        some (adjustedMaxReturn (dotQ mu2 [1 / 5, 4 / 5]) (dotQ mu2 [1, 0]) * (21 / 20))) :=
  ⟨rfl, rfl, rfl, by with_unfolding_all rfl,
    C1_amended_sweep solver2 id invOk tick2 mu2 cov2 0 false 1 cov2 [1 / 5, 4 / 5] [1, 0]
      demoResp2 rfl rfl rfl (by with_unfolding_all rfl)⟩

/-- C2: on the sweep path (inversion and preliminary solves succeeded),
the returned tangency dominates the Sharpe ratio of every accepted
frontier point, it is one of the accepted points whenever any exists, and
when the frontier is empty it is the minimum-variance tangency built from
the minimum-variance weights. -/
theorem C2_tangency_max_sharpe (solver : QProblem → SolveResult) (sqrtQ : ℚ → ℚ)
    (inv : List (List ℚ) → Option (List (List ℚ))) (tickers : List String)
    (mu : List ℚ) (cov : List (List ℚ)) (rf : ℚ) (aS : Bool) (mW : ℚ)
    (covi : List (List ℚ)) (wmin wmax : List ℚ) (resp : EfficientFrontierResponse)
    (hinv : inv cov = some covi)
    (hmin : solver (minVarProblem mu cov aS mW) = ⟨.optimal, some wmin⟩)
    (hmax : solver (maxRetProblem mu cov aS mW) = ⟨.optimal, some wmax⟩)
    (h : efficientFrontierCore solver sqrtQ inv tickers mu cov rf aS mW = .ok resp) :
    (∀ p ∈ resp.frontier, 0 < p.risk → sharpeOf rf p ≤ resp.tangency.sharpe) ∧
    (resp.frontier ≠ [] →
      ∃ p ∈ resp.frontier, 0 < p.risk ∧ resp.tangency = tangencyOfPoint rf p) ∧
    (resp.frontier = [] → resp.tangency = minVarTangency sqrtQ tickers mu cov rf wmin) := by
  rw [core_eq_main solver sqrtQ inv tickers mu cov rf aS mW covi wmin wmax hinv hmin hmax] at h
  have hresp : resp = mainResponse solver sqrtQ tickers mu cov rf aS mW wmin wmax := by
    cases h
    rfl
  subst hresp
  rw [mainResponse_tangency, mainResponse_frontier]
  set F := buildFrontier solver sqrtQ tickers mu cov aS mW
    (frontierTargets (dotQ mu wmin) (dotQ mu wmax)) with hF
  rcases hsel : selectTangency rf F with _ | t
  · have hnone := selectTangency_eq_none rf F hsel
    refine ⟨?_, ?_, ?_⟩
    · intro p hp hpr
      exact absurd hpr (hnone p hp)
    · intro hne
      rcases List.exists_mem_of_ne_nil F hne with ⟨p, hp⟩
      exact absurd (buildFrontier_risk_pos solver sqrtQ tickers mu cov aS mW _ p hp)
        (hnone p hp)
    · intro _
      rfl
  · obtain ⟨⟨p, hp, hpr, hpt⟩, hdom⟩ := selectTangency_eq_some rf F t hsel
    refine ⟨?_, ?_, ?_⟩
    · intro q hq hqr
      exact hdom q hq hqr
    · intro _
      exact ⟨p, hp, hpr, hpt⟩
    · intro hemp
      rw [hemp] at hsel
      cases hsel

/-- C2, witness: the tangency-selection theorem applied to the concrete
one-asset run `demoRun1`, whose frontier has four accepted points. -/
theorem C2_witness :
    invOk cov1 = some cov1 ∧
    oneAssetSolver (minVarProblem mu1 cov1 true 1) = ⟨.optimal, some [1]⟩ ∧
    oneAssetSolver (maxRetProblem mu1 cov1 true 1) = ⟨.optimal, some [1]⟩ ∧
    efficientFrontierCore oneAssetSolver id invOk tick1 mu1 cov1 0 true 1 = .ok demoResp1 ∧
    ((∀ p ∈ demoResp1.frontier, 0 < p.risk → sharpeOf 0 p ≤ demoResp1.tangency.sharpe) ∧
      (demoResp1.frontier ≠ [] →
        ∃ p ∈ demoResp1.frontier, 0 < p.risk ∧ demoResp1.tangency = tangencyOfPoint 0 p) ∧
      (demoResp1.frontier = [] →
        demoResp1.tangency = minVarTangency id tick1 mu1 cov1 0 [1])) :=
  ⟨rfl, by with_unfolding_all rfl, by with_unfolding_all rfl, by with_unfolding_all rfl,
    C2_tangency_max_sharpe oneAssetSolver id invOk tick1 mu1 cov1 0 true 1 cov1 [1] [1]
      demoResp1 rfl (by with_unfolding_all rfl) (by with_unfolding_all rfl)
      (by with_unfolding_all rfl)⟩

/-- C3: a frontier point is produced for a target in the sweep exactly
when the solver reports status optimal with a non-None value whose
resulting risk is strictly positive; every other target contributes
nothing (no error is raised, the sweep just skips it). -/
theorem C3_point_acceptance (solver : QProblem → SolveResult) (sqrtQ : ℚ → ℚ)
    (tickers : List String) (mu : List ℚ) (cov : List (List ℚ)) (aS : Bool) (mW : ℚ)
    (targets : List ℚ) (pt : EfficientFrontierPoint) :
    pt ∈ buildFrontier solver sqrtQ tickers mu cov aS mW targets ↔
      ∃ t ∈ targets, ∃ w,
        (solver (targetProblem mu cov aS mW t)).status = .optimal ∧
        (solver (targetProblem mu cov aS mW t)).value = some w ∧
        0 < sqrtQ (quadFormQ cov w) ∧
        pt = ⟨sqrtQ (quadFormQ cov w), dotQ mu w, tickers.zip w⟩ :=
  mem_buildFrontier_iff solver sqrtQ tickers mu cov aS mW targets pt

/-- C3, witness: the acceptance characterization applied to the concrete
one-asset sweep and its first accepted point. -/
theorem C3_witness :
    demoPt1 ∈ buildFrontier oneAssetSolver id tick1 mu1 cov1 true 1 demoTargets1 ↔
      ∃ t ∈ demoTargets1, ∃ w,
        (oneAssetSolver (targetProblem mu1 cov1 true 1 t)).status = .optimal ∧
        (oneAssetSolver (targetProblem mu1 cov1 true 1 t)).value = some w ∧
        0 < id (quadFormQ cov1 w) ∧
        demoPt1 = ⟨id (quadFormQ cov1 w), dotQ mu1 w, tick1.zip w⟩ :=
  C3_point_acceptance oneAssetSolver id tick1 mu1 cov1 true 1 demoTargets1 demoPt1

/-- C4: with a sound solver (optimal solutions satisfy the constraints of
the problem they solve, among them `sum(w) == 1`), every accepted frontier
point's weight mapping sums to exactly 1, hence to 1 within the floating
tolerance `1e-6`. -/
theorem C4_weights_sum_one (solver : QProblem → SolveResult) (sqrtQ : ℚ → ℚ)
    (tickers : List String) (mu : List ℚ) (cov : List (List ℚ)) (aS : Bool) (mW : ℚ)
    (targets : List ℚ) (pt : EfficientFrontierPoint)
    (hsound : SolverSound solver)
    (hlen : mu.length ≤ tickers.length)
    (hmem : pt ∈ buildFrontier solver sqrtQ tickers mu cov aS mW targets) :
    pointWeightSum pt = 1 ∧ |pointWeightSum pt - 1| ≤ 1 / 1000000 := by
  rcases (mem_buildFrontier_iff solver sqrtQ tickers mu cov aS mW targets pt).mp hmem with
    ⟨t, _, w, hst, hval, _, hpt⟩
  have hfeas := hsound (targetProblem mu cov aS mW t) w hst hval
  have hsum : w.sum = 1 := feasibleB_sum_one _ w hfeas
  have hwlen : w.length ≤ tickers.length := by
    rw [feasibleB_length _ w hfeas]
    exact hlen
  have hws : pointWeightSum pt = w.sum := by
    rw [hpt]
    unfold pointWeightSum
    rw [List.map_snd_zip tickers w hwlen]
  rw [hws, hsum]
  norm_num

/-- C4, witness: the weight-sum theorem applied to the sound one-asset
solver and the first accepted point of the concrete sweep. -/
theorem C4_witness :
    mu1.length ≤ tick1.length ∧
    demoPt1 ∈ buildFrontier oneAssetSolver id tick1 mu1 cov1 true 1 demoTargets1 ∧
    (pointWeightSum demoPt1 = 1 ∧ |pointWeightSum demoPt1 - 1| ≤ 1 / 1000000) :=
  ⟨by decide, by with_unfolding_all decide,
    C4_weights_sum_one oneAssetSolver id tick1 mu1 cov1 true 1 demoTargets1 demoPt1
      oneAssetSolver_sound (by decide) (by with_unfolding_all decide)⟩

/-- C5, counterexample: when the covariance inversion raises
`LinAlgError`, the equal-weight fallback response can carry a tangency
with strictly positive risk while its capital-market-line list is empty,
not a 50-point sweep up to twice the tangency risk as the claim requires
for every response with positive tangency risk. -/
theorem C5_counterexample :
    invFail cov1 = none ∧
    demoRun3 = .ok demoResp3 ∧
    0 < demoResp3.tangency.risk ∧
    demoResp3.frontier = [] ∧
    demoResp3.cml = [] ∧
    demoResp3.cml.map CMLPoint.risk ≠
      linspace 0 (cmlBound demoResp3.tangency demoResp3.frontier) 50 := by
  refine ⟨rfl, by with_unfolding_all rfl, by with_unfolding_all decide,
    by with_unfolding_all rfl, by with_unfolding_all rfl, by with_unfolding_all decide⟩

/-- C5, amended: on the sweep path (inversion and preliminary solves
succeeded), whenever the returned tangency has positive risk the response
CML lies exactly on the line through `(0, rf)` with slope
`(tangency.return - rf) / tangency.risk`, its risks are the 50-point
`linspace` from 0 to the bound (`1.5 *` the maximum frontier risk, or
`2 *` the tangency risk when the frontier is empty), and they are
nondecreasing.  The `LinAlgError` fallback path instead returns an empty
CML (see the counterexample). -/
theorem C5_amended_cml (solver : QProblem → SolveResult) (sqrtQ : ℚ → ℚ)
    (inv : List (List ℚ) → Option (List (List ℚ))) (tickers : List String)
    (mu : List ℚ) (cov : List (List ℚ)) (rf : ℚ) (aS : Bool) (mW : ℚ)
    (covi : List (List ℚ)) (wmin wmax : List ℚ) (resp : EfficientFrontierResponse)
    (hinv : inv cov = some covi)
    (hmin : solver (minVarProblem mu cov aS mW) = ⟨.optimal, some wmin⟩)
    (hmax : solver (maxRetProblem mu cov aS mW) = ⟨.optimal, some wmax⟩)
    (h : efficientFrontierCore solver sqrtQ inv tickers mu cov rf aS mW = .ok resp)
    (hrisk : 0 < resp.tangency.risk) :
    (∀ q ∈ resp.cml,
        q.return_ = rf + (resp.tangency.return_ - rf) / resp.tangency.risk * q.risk) ∧
    resp.cml.map CMLPoint.risk = linspace 0 (cmlBound resp.tangency resp.frontier) 50 ∧
    (resp.cml.map CMLPoint.risk).Pairwise (· ≤ ·) := by
  have hpos : ∀ p ∈ resp.frontier, 0 < p.risk :=
    core_ok_frontier_risk_pos solver sqrtQ inv tickers mu cov rf aS mW resp h
  rw [core_eq_main solver sqrtQ inv tickers mu cov rf aS mW covi wmin wmax hinv hmin hmax] at h
  have hresp : resp = mainResponse solver sqrtQ tickers mu cov rf aS mW wmin wmax := by
    cases h
    rfl
  have hcml : resp.cml = buildCML rf resp.tangency resp.frontier := by
    rw [hresp]
    exact mainResponse_cml solver sqrtQ tickers mu cov rf aS mW wmin wmax
  have hbuild : resp.cml = (linspace 0 (cmlBound resp.tangency resp.frontier) 50).map
      (fun r => ⟨r, rf + (resp.tangency.return_ - rf) / resp.tangency.risk * r⟩) := by
    rw [hcml]
    unfold buildCML
    rw [if_pos hrisk]
  have hbound : 0 ≤ cmlBound resp.tangency resp.frontier := by
    unfold cmlBound
    rcases hmaxr : pythonMax (resp.frontier.map (·.risk)) with _ | m
    · rw [hmaxr]
      linarith
    · rw [hmaxr]
      have hm : 0 < m := by
        refine pythonMax_pos (resp.frontier.map (·.risk)) m ?_ hmaxr
        intro x hx
        rcases List.mem_map.mp hx with ⟨p, hp, hxp⟩
        rw [← hxp]
        exact hpos p hp
      linarith
  refine ⟨?_, ?_, ?_⟩
  · intro q hq
    rw [hbuild] at hq
    rcases List.mem_map.mp hq with ⟨r, _, hqr⟩
    rw [← hqr]
  · rw [hbuild, List.map_map]
    have hid : (CMLPoint.risk ∘ fun r =>
        (⟨r, rf + (resp.tangency.return_ - rf) / resp.tangency.risk * r⟩ : CMLPoint)) = id := by
      funext r
      rfl
    rw [hid, List.map_id]
  · rw [hbuild, List.map_map]
    have hid : (CMLPoint.risk ∘ fun r =>
        (⟨r, rf + (resp.tangency.return_ - rf) / resp.tangency.risk * r⟩ : CMLPoint)) = id := by
      funext r
      rfl
    rw [hid, List.map_id]
    exact linspace_pairwise 0 (cmlBound resp.tangency resp.frontier) hbound

/-- C5, witness: the amended CML theorem applied to the concrete one-asset
run `demoRun1`, whose tangency risk `1/25` is positive. -/
theorem C5_witness :
    invOk cov1 = some cov1 ∧
    oneAssetSolver (minVarProblem mu1 cov1 true 1) = ⟨.optimal, some [1]⟩ ∧
    oneAssetSolver (maxRetProblem mu1 cov1 true 1) = ⟨.optimal, some [1]⟩ ∧
    efficientFrontierCore oneAssetSolver id invOk tick1 mu1 cov1 0 true 1 = .ok demoResp1 ∧
    0 < demoResp1.tangency.risk ∧
    ((∀ q ∈ demoResp1.cml,
        q.return_ = 0 + (demoResp1.tangency.return_ - 0) / demoResp1.tangency.risk * q.risk) ∧
      demoResp1.cml.map CMLPoint.risk =
        linspace 0 (cmlBound demoResp1.tangency demoResp1.frontier) 50 ∧
      (demoResp1.cml.map CMLPoint.risk).Pairwise (· ≤ ·)) :=
  ⟨rfl, by with_unfolding_all rfl, by with_unfolding_all rfl, by with_unfolding_all rfl,
    by with_unfolding_all decide,
    C5_amended_cml oneAssetSolver id invOk tick1 mu1 cov1 0 true 1 cov1 [1] [1] demoResp1
      rfl (by with_unfolding_all rfl) (by with_unfolding_all rfl) (by with_unfolding_all rfl)
      (by with_unfolding_all decide)⟩

/-- C6, counterexample: with one asset of mean return `-1/10` the solved
minimum and maximum returns are equal (so the rescale fires), and after
the rescale the sweep's upper bound `-63/400` lies strictly BELOW its
lower bound `-19/200`: the rescale does not keep the sweep non-degenerate
when the minimum-variance return is negative. -/
theorem C6_counterexample :
    oneAssetSolver (minVarProblem [-(1 : ℚ) / 10] [[1 / 25]] true 1) = ⟨.optimal, some [1]⟩ ∧
    oneAssetSolver (maxRetProblem [-(1 : ℚ) / 10] [[1 / 25]] true 1) = ⟨.optimal, some [1]⟩ ∧
    dotQ [-(1 : ℚ) / 10] [1] = -(1 / 10) ∧
    (-(1 : ℚ) / 10 ≤ -(1 : ℚ) / 10) ∧
    adjustedMaxReturn (-(1 : ℚ) / 10) (-(1 : ℚ) / 10) = -(3 / 20) ∧
    (frontierTargets (-(1 : ℚ) / 10) (-(1 : ℚ) / 10))[0]? = some (-(19 : ℚ) / 200) ∧
    (frontierTargets (-(1 : ℚ) / 10) (-(1 : ℚ) / 10))[49]? = some (-(63 : ℚ) / 400) ∧
    ¬ (-(19 : ℚ) / 200 < -(63 : ℚ) / 400) := by
  refine ⟨by with_unfolding_all rfl, by with_unfolding_all rfl, by with_unfolding_all rfl,
    by with_unfolding_all decide, by with_unfolding_all rfl, ?_, ?_, by with_unfolding_all decide⟩
  · rw [frontierTargets_head]
    with_unfolding_all rfl
  · rw [frontierTargets_last]
    with_unfolding_all rfl

/-- C6, amended: when `min_return >= max_return` the source rescales the
upper bound to `min_return * 1.5`; this keeps the sweep non-degenerate
(upper sweep bound strictly above the lower sweep bound) provided the
minimum-variance return is strictly positive. -/
theorem C6_amended_rescale (minR maxR : ℚ) (hge : maxR ≤ minR) (hpos : 0 < minR) :
    adjustedMaxReturn minR maxR = minR * (3 / 2) ∧
    minR * (19 / 20) < adjustedMaxReturn minR maxR * (21 / 20) := by
  have heq : adjustedMaxReturn minR maxR = minR * (3 / 2) := by
    unfold adjustedMaxReturn
    rw [if_pos hge]
  refine ⟨heq, ?_⟩
  rw [heq]
  nlinarith

/-- C6, witness: the amended rescale theorem at `min_return = 1/10`,
`max_return = 1/20`. -/
theorem C6_witness :
    ((1 : ℚ) / 20 ≤ 1 / 10) ∧ (0 < (1 : ℚ) / 10) ∧
    (adjustedMaxReturn (1 / 10) (1 / 20) = (1 / 10) * (3 / 2) ∧
      (1 : ℚ) / 10 * (19 / 20) < adjustedMaxReturn (1 / 10) (1 / 20) * (21 / 20)) :=
  ⟨by norm_num, by norm_num,
    C6_amended_rescale (1 / 10) (1 / 20) (by norm_num) (by norm_num)⟩

/-- C7, counterexample: (a) series of unequal length are not truncated to
the minimum length - pandas raises on the second column assignment, while
the spec's zip-and-truncate construction would succeed; (b) NaN entries
are not dropped row-wise - on columns `[1, 3]` and `[2, NaN]` the row-drop
construction keeps only the row `[1, 2]`, so its first-column mean is 1,
while the source's pandas mean of the first column is 2. -/
theorem C7_counterexample :
    buildReturnMatrix [[some (1 : ℚ), some 2, some 3], [some 4, some 5]] = .error () ∧
    returnMatrixSpec [[some (1 : ℚ), some 2, some 3], [some 4, some 5]] = [[1, 4], [2, 5]] ∧
    calculate_efficient_frontier oneAssetSolver id invOk reqMismatch =
      .error (.http 500 lengthMismatchMsg) ∧
    returnMatrixSpec [[some (1 : ℚ), some 3], [some 2, none]] = [[1, 2]] ∧
    (returnMatrixSpec [[some (1 : ℚ), some 3], [some 2, none]]).map (fun r => r.getD 0 0) = [1] ∧
    pandasMean [some (1 : ℚ), some 3] = some 2 ∧
    ¬ ((2 : ℚ) = 1) := by
  refine ⟨by with_unfolding_all rfl, by with_unfolding_all rfl, by with_unfolding_all rfl,
    by with_unfolding_all rfl, by with_unfolding_all rfl, by with_unfolding_all rfl,
    by norm_num⟩

/-- C7, amended: the data frame is built by assigning the series as
columns unchanged; construction succeeds exactly when all series have
equal length (no truncation happens, a mismatch is an error), and the
estimation then consumes the columns as they are (NaN entries are handled
per column and pairwise by the pandas mean and covariance, not dropped
row-wise). -/
theorem C7_amended_matrix (cols : List (List (Option ℚ))) :
    ((∃ m, buildReturnMatrix cols = .ok m) ↔
      ∀ c1 ∈ cols, ∀ c2 ∈ cols, c1.length = c2.length) ∧
    (∀ m, buildReturnMatrix cols = .ok m → m = cols) := by
  cases cols with
  | nil =>
    refine ⟨⟨fun _ => ?_, fun _ => ⟨[], rfl⟩⟩, fun m h => ?_⟩
    · intro c1 h1
      cases h1
    · cases h
      rfl
  | cons c cs =>
    by_cases hall : (cs.all fun d => decide (d.length = c.length)) = true
    · have hok : buildReturnMatrix (c :: cs) = .ok (c :: cs) := by
        simp only [buildReturnMatrix]
        rw [if_pos hall]
      have hlen : ∀ d ∈ cs, d.length = c.length := by
        intro d hd
        exact of_decide_eq_true (List.all_eq_true.mp hall d hd)
      refine ⟨⟨fun _ => ?_, fun _ => ⟨c :: cs, hok⟩⟩, fun m h => ?_⟩
      · intro c1 h1 c2 h2
        have h1' : c1.length = c.length := by
          rcases List.mem_cons.mp h1 with rfl | h1
          · rfl
          · exact hlen c1 h1
        have h2' : c2.length = c.length := by
          rcases List.mem_cons.mp h2 with rfl | h2
          · rfl
          · exact hlen c2 h2
        rw [h1', h2']
      · rw [hok] at h
        cases h
        rfl
    · have herr : buildReturnMatrix (c :: cs) = .error () := by
        simp only [buildReturnMatrix]
        rw [if_neg hall]
      refine ⟨⟨fun hex => ?_, fun hpair => ?_⟩, fun m h => ?_⟩
      · rcases hex with ⟨m, hm⟩
        rw [herr] at hm
        cases hm
      · exfalso
        apply hall
        rw [List.all_eq_true]
        intro d hd
        exact decide_eq_true (hpair d (List.mem_cons_of_mem c hd) c (List.mem_cons_self c cs))
      · rw [herr] at h
        cases h

/-- C7, witness: the amended construction theorem at a concrete pair of
equal-length one-entry columns. -/
theorem C7_witness :
    ((∃ m, buildReturnMatrix [[some (1 : ℚ)], [some 2]] = .ok m) ↔
      ∀ c1 ∈ [[some (1 : ℚ)], [some 2]], ∀ c2 ∈ [[some (1 : ℚ)], [some 2]],
        c1.length = c2.length) ∧
    (∀ m, buildReturnMatrix [[some (1 : ℚ)], [some 2]] = .ok m →
      m = [[some (1 : ℚ)], [some 2]]) :=
  C7_amended_matrix [[some (1 : ℚ)], [some 2]]

lemma endpoint_eq_mismatch (solver : QProblem → SolveResult) (sqrtQ : ℚ → ℚ)
    (inv : List (List ℚ) → Option (List (List ℚ))) (req : EfficientFrontierRequest) (u : Unit)
    (hb : buildReturnMatrix (requestColumns req) = .error u) :
    calculate_efficient_frontier solver sqrtQ inv req =
      .error (.http 500 lengthMismatchMsg) := by
  unfold calculate_efficient_frontier
  rw [hb]

lemma endpoint_eq_inner (solver : QProblem → SolveResult) (sqrtQ : ℚ → ℚ)
    (inv : List (List ℚ) → Option (List (List ℚ))) (req : EfficientFrontierRequest)
    (cols : List (List (Option ℚ)))
    (hb : buildReturnMatrix (requestColumns req) = .ok cols) :
    calculate_efficient_frontier solver sqrtQ inv req =
      match estimateMu cols (annualizationFactor req.interval),
          estimateCov cols (annualizationFactor req.interval) with
      | some mu, some cov =>
        efficientFrontierCore solver sqrtQ inv (requestTickers req) mu cov
          req.rf req.allow_short req.max_weight
      | _, _ => .error (.http 500 statsMsg) := by
  unfold calculate_efficient_frontier
  rw [hb]

lemma pairComplete_self_length (c : List (Option ℚ)) :
    (pairComplete c c).length = (c.filterMap id).length := by
  induction c with
  | nil => rfl
  | cons x r ih =>
    cases x with
    | none => simpa [pairComplete, List.filterMap_cons] using ih
    | some a => simpa [pairComplete, List.filterMap_cons] using ih

/-- C8, counterexample: on a request with a single observation the
estimation step itself does not raise anything - the pandas mean is a
plain value and the covariance is NaN - and the endpoint fails with the
same generic 500 error that an unrelated numerical failure (here an
infeasible optimization caused by a negative weight cap) produces: there
is no distinguished `InsufficientDataError` anywhere in the source. -/
theorem C8_counterexample :
    estimateMu (requestColumns req1obs) 252 = some [126 / 5] ∧
    estimateCov (requestColumns req1obs) 252 = none ∧
    calculate_efficient_frontier oneAssetSolver id invOk req1obs =
      .error (.http 500 statsMsg) ∧
    calculate_efficient_frontier oneAssetSolver id invOk reqNegCap =
      .error (.http 500 minVarMsg) ∧
    apiStatus (.http 500 statsMsg) = apiStatus (.http 500 minVarMsg) := by
  refine ⟨by with_unfolding_all rfl, by with_unfolding_all rfl, by with_unfolding_all rfl,
    by with_unfolding_all rfl, rfl⟩

/-- C8, amended: whenever the aligned data frame was built and some column
has fewer than 2 usable (non-NaN) observations, the pandas statistics
contain NaN (the mean when 0 usable, the diagonal covariance when 1), and
the request fails with the generic 500 handler error - not with a
distinguished `InsufficientDataError`, which does not exist in the
source. -/
theorem C8_insufficient_data (solver : QProblem → SolveResult) (sqrtQ : ℚ → ℚ)
    (inv : List (List ℚ) → Option (List (List ℚ))) (req : EfficientFrontierRequest)
    (cols : List (List (Option ℚ))) (c : List (Option ℚ))
    (hb : buildReturnMatrix (requestColumns req) = .ok cols)
    (hc : c ∈ cols) (hcount : (c.filterMap id).length < 2) :
    calculate_efficient_frontier solver sqrtQ inv req = .error (.http 500 statsMsg) := by
  have hone : estimateMu cols (annualizationFactor req.interval) = none ∨
      estimateCov cols (annualizationFactor req.interval) = none := by
    rcases (by omega : (c.filterMap id).length = 0 ∨ (c.filterMap id).length = 1) with h0 | h1
    · left
      have hmean : pandasMean c = none := by
        unfold pandasMean
        rw [if_pos h0]
      unfold estimateMu
      apply allSome_eq_none
      have hfc : (fun d => (pandasMean d).map (· * annualizationFactor req.interval)) c = none := by
        show (pandasMean c).map (· * annualizationFactor req.interval) = none
        rw [hmean]
        rfl
      rw [← hfc]
      exact List.mem_map_of_mem _ hc
    · right
      have hcov : pandasCov c c = none := by
        unfold pandasCov
        rw [if_pos]
        rw [pairComplete_self_length, h1]
        norm_num
      unfold estimateCov
      apply allSome_eq_none
      have hrow : (fun ci => allSome (cols.map
          (fun cj => (pandasCov ci cj).map (· * annualizationFactor req.interval)))) c = none := by
        show allSome (cols.map
          (fun cj => (pandasCov c cj).map (· * annualizationFactor req.interval))) = none
        apply allSome_eq_none
        have hfc : (fun cj => (pandasCov c cj).map (· * annualizationFactor req.interval)) c =
            none := by
          show (pandasCov c c).map (· * annualizationFactor req.interval) = none
          rw [hcov]
          rfl
        rw [← hfc]
        exact List.mem_map_of_mem _ hc
      rw [← hrow]
      exact List.mem_map_of_mem _ hc
  rw [endpoint_eq_inner solver sqrtQ inv req cols hb]
  rcases hmu : estimateMu cols (annualizationFactor req.interval) with _ | mus
  · rcases hcv : estimateCov cols (annualizationFactor req.interval) with _ | covs <;> rfl
  · rcases hcv : estimateCov cols (annualizationFactor req.interval) with _ | covs
    · rfl
    · exfalso
      rcases hone with hx | hx
      · rw [hmu] at hx
        cases hx
      · rw [hcv] at hx
        cases hx

/-- C8, witness: the amended theorem applied to the concrete
one-observation request `req1obs`. -/
theorem C8_witness :
    buildReturnMatrix (requestColumns req1obs) = .ok [[some ((1 : ℚ) / 10)]] ∧
    [some ((1 : ℚ) / 10)] ∈ [[some ((1 : ℚ) / 10)]] ∧
    ([some ((1 : ℚ) / 10)].filterMap id).length < 2 ∧
    calculate_efficient_frontier oneAssetSolver id invOk req1obs =
      .error (.http 500 statsMsg) :=
  ⟨by with_unfolding_all rfl, by with_unfolding_all decide, by with_unfolding_all decide,
    C8_insufficient_data oneAssetSolver id invOk req1obs [[some ((1 : ℚ) / 10)]]
      [some ((1 : ℚ) / 10)] (by with_unfolding_all rfl) (by with_unfolding_all decide)
      (by with_unfolding_all decide)⟩

lemma core_error_500 (solver : QProblem → SolveResult) (sqrtQ : ℚ → ℚ)
    (inv : List (List ℚ) → Option (List (List ℚ))) (tickers : List String)
    (mu : List ℚ) (cov : List (List ℚ)) (rf : ℚ) (aS : Bool) (mW : ℚ) (e : ApiError)
    (h : efficientFrontierCore solver sqrtQ inv tickers mu cov rf aS mW = .error e) :
    apiStatus e = 500 := by
  unfold efficientFrontierCore at h
  rcases hi : inv cov with _ | covi <;> rw [hi] at h
  · cases h
  · rcases hmin : solver (minVarProblem mu cov aS mW) with ⟨st1, val1⟩
    rw [hmin] at h
    cases st1 with
    | failed =>
      cases h
      rfl
    | optimal =>
      cases val1 with
      | none =>
        cases h
        rfl
      | some wmin =>
        rcases hmax : solver (maxRetProblem mu cov aS mW) with ⟨st2, val2⟩
        rw [hmax] at h
        cases st2 with
        | failed =>
          cases h
          rfl
        | optimal =>
          cases val2 with
          | none =>
            cases h
            rfl
          | some wmax => cases h

/-- C9, counterexample: a request with a negative weight cap (malformed
input that passes schema validation) is rejected with status 500, the same
server-error status used for internal numerical failures, not with a
4xx-style status. -/
theorem C9_counterexample :
    reqNegCap.max_weight < 0 ∧
    calculate_efficient_frontier oneAssetSolver id invOk reqNegCap =
      .error (.http 500 minVarMsg) ∧
    ¬ (400 ≤ apiStatus (.http 500 minVarMsg) ∧ apiStatus (.http 500 minVarMsg) < 500) := by
  refine ⟨by norm_num [reqNegCap], by with_unfolding_all rfl, by decide⟩

/-- C9, amended: the endpoint has a single failure status: every error it
returns - malformed-but-schema-valid input, misaligned series, NaN
statistics, or solver failure - carries status 500; the two failure
classes of the claim are not distinguished by status code. -/
theorem C9_errors_are_500 (solver : QProblem → SolveResult) (sqrtQ : ℚ → ℚ)
    (inv : List (List ℚ) → Option (List (List ℚ))) (req : EfficientFrontierRequest)
    (e : ApiError)
    (h : calculate_efficient_frontier solver sqrtQ inv req = .error e) :
    apiStatus e = 500 := by
  rcases hb : buildReturnMatrix (requestColumns req) with u | cols
  · rw [endpoint_eq_mismatch solver sqrtQ inv req u hb] at h
    cases h
    rfl
  · rw [endpoint_eq_inner solver sqrtQ inv req cols hb] at h
    rcases hmu : estimateMu cols (annualizationFactor req.interval) with _ | mus <;>
      rcases hcv : estimateCov cols (annualizationFactor req.interval) with _ | covs <;>
      rw [hmu, hcv] at h
    · cases h
      rfl
    · cases h
      rfl
    · cases h
      rfl
    · exact core_error_500 solver sqrtQ inv (requestTickers req) mus covs
        req.rf req.allow_short req.max_weight e h

/-- C9, witness: the single-failure-status theorem applied to the concrete
negative-cap request. -/
theorem C9_witness :
    calculate_efficient_frontier oneAssetSolver id invOk reqNegCap =
      .error (.http 500 minVarMsg) ∧
    apiStatus (.http 500 minVarMsg) = 500 :=
  ⟨by with_unfolding_all rfl,
    C9_errors_are_500 oneAssetSolver id invOk reqNegCap (.http 500 minVarMsg)
      (by with_unfolding_all rfl)⟩

/-- C10: when the covariance inversion raises `LinAlgError`, the endpoint
core returns a successful response whose frontier and CML lists are empty
and whose tangency is the equal-weight fallback: every weight is exactly
`1/N`, and the Sharpe ratio is 0 whenever the fallback risk is 0. -/
theorem C10_linalg_fallback (solver : QProblem → SolveResult) (sqrtQ : ℚ → ℚ)
    (inv : List (List ℚ) → Option (List (List ℚ))) (tickers : List String)
    (mu : List ℚ) (cov : List (List ℚ)) (rf : ℚ) (aS : Bool) (mW : ℚ)
    (hinv : inv cov = none) :
    efficientFrontierCore solver sqrtQ inv tickers mu cov rf aS mW =
      .ok (equalWeightResponse sqrtQ tickers mu cov rf) ∧
    (equalWeightResponse sqrtQ tickers mu cov rf).frontier = [] ∧
    (equalWeightResponse sqrtQ tickers mu cov rf).cml = [] ∧
    (∀ x ∈ (equalWeightResponse sqrtQ tickers mu cov rf).tangency.weights,
        x.2 = ((mu.length : ℚ))⁻¹) ∧
    ((equalWeightResponse sqrtQ tickers mu cov rf).tangency.risk = 0 →
      (equalWeightResponse sqrtQ tickers mu cov rf).tangency.sharpe = 0) := by
  refine ⟨?_, rfl, rfl, ?_, ?_⟩
  · unfold efficientFrontierCore
    rw [hinv]
  · rintro ⟨s, v⟩ hx
    have hv : v ∈ List.replicate mu.length ((mu.length : ℚ))⁻¹ := (List.of_mem_zip hx).2
    exact List.eq_of_mem_replicate hv
  · intro h0
    simp only [equalWeightResponse] at h0 ⊢
    rw [h0]
    simp

/-- C10, witness: the fallback theorem applied to the concrete one-asset
input with an always-failing inversion. -/
theorem C10_witness :
    invFail cov1 = none ∧
    (efficientFrontierCore oneAssetSolver id invFail tick1 mu1 cov1 0 true 1 =
        .ok (equalWeightResponse id tick1 mu1 cov1 0) ∧
      (equalWeightResponse id tick1 mu1 cov1 0).frontier = [] ∧
      (equalWeightResponse id tick1 mu1 cov1 0).cml = [] ∧
      (∀ x ∈ (equalWeightResponse id tick1 mu1 cov1 0).tangency.weights,
          x.2 = ((mu1.length : ℚ))⁻¹) ∧
      ((equalWeightResponse id tick1 mu1 cov1 0).tangency.risk = 0 →
        (equalWeightResponse id tick1 mu1 cov1 0).tangency.sharpe = 0)) :=
  ⟨rfl, C10_linalg_fallback oneAssetSolver id invFail tick1 mu1 cov1 0 true 1 rfl⟩
